import Mathlib

/-!
Shallow embedding of the DumbWish server core (src/server.js): the wishlist
item store (list / create / update / delete over the persisted JSON array)
and the image pipeline (dimension normalization and file writes), together
with proofs of the specified properties.

Conventions of the embedding:
* The persisted JSON document (`data/wishlist.json`) is a `List Item`.
  `JSON.stringify` drops `undefined` object fields and keeps `null`, so the
  optional text fields are `Option String` (`none` = absent in the JSON,
  surviving the stringify/parse round trip) and `image` is `Option String`
  with `none` standing for JSON `null`.
* JavaScript truthiness on the request-body strings used by the handlers
  (`if (!title)`, `req.body.image || …`): a field is falsy when it is
  `undefined` or the empty string, modelled by `jsFalsy`.
* `Date.now()` is a `Nat` millisecond timestamp passed in explicitly;
  `new Date().toISOString()` is a `String` passed in explicitly.
* `sharp` is modelled by `ImgBytes`: uploaded bytes either decode to an
  image with intrinsic pixel dimensions, or fail to decode (in which case
  `sharp(buffer).metadata()` rejects before any file is touched).
* Handlers are modelled as pure state transformers returning the response
  alongside the new state; a thrown/caught error leaves the state as it was
  at the point the handler aborted.
-/

namespace DumbWish

/-- Truthiness of an optional string request-body field in JavaScript:
`undefined` and `""` are falsy, every other string is truthy. -/
def jsFalsy : Option String → Bool
  | none => true
  | some s => s = ""

/-- One wishlist item record, as persisted in `data/wishlist.json`
(POST handler, src/server.js lines 199-207; `dateUpdated` is added by the
PUT handler, line 248). -/
structure Item where
  id : Nat
  title : String
  url : Option String
  price : Option String
  note : Option String
  image : Option String
  dateAdded : String
  dateUpdated : Option String
deriving Repr, DecidableEq

/-- Uploaded bytes as seen by the `sharp` decoder: either a decodable image
with its native pixel width and height, or undecodable bytes (for which
`sharp(buffer).metadata()` rejects). -/
inductive ImgBytes
  | valid (width height : Nat)
  | invalid
deriving Repr, DecidableEq

/-- `config.maxImageSize` (src/server.js line 39). -/
def maxImageSize : Nat := 1024

/-- JavaScript `Math.round`: round half toward positive infinity,
`Math.round x = ⌊x + 0.5⌋`. -/
def jsRound (q : ℚ) : ℤ := ⌊q + 1/2⌋

/-- The dimension computation of `processImage` (src/server.js lines 79-87):
if either native dimension exceeds `maxD`, scale both by
`ratio = min (maxD/width) (maxD/height)` and round each with `Math.round`;
otherwise keep the native dimensions. -/
def computeDims (w h maxD : Nat) : ℤ × ℤ :=
  if maxD < w ∨ maxD < h then
    let ratio : ℚ := min ((maxD : ℚ) / (w : ℚ)) ((maxD : ℚ) / (h : ℚ))
    (jsRound ((w : ℚ) * ratio), jsRound ((h : ℚ) * ratio))
  else
    ((w : ℤ), (h : ℤ))

/-- The image file name derived from an item id (src/server.js line 73:
`path.join(dataDir, id + '.jpeg')` without the directory part). -/
def imageFileName (id : Nat) : String := toString id ++ ".jpeg"

/-- Path of the image file inside the data directory. -/
def dataPath (name : String) : String := "data/" ++ name

/-- The stable reference returned by `processImage`
(src/server.js line 100: `/api/images/<id>.jpeg`). -/
def imageRef (id : Nat) : String := "/api/images/" ++ imageFileName id

/-- A filesystem operation performed by the image pipeline. -/
inductive FileOp
  | write (path : String)
  | rename (src dst : String)
deriving Repr, DecidableEq

/-- The ordered list of filesystem operations `processImage` performs
(src/server.js lines 72-101): for undecodable bytes, `metadata()` throws
before anything is written; for a decodable image, a single
`sharp(buffer)….toFile(imagePath)` writes directly at the final path
`data/<id>.jpeg` — there is no temporary file and no rename. -/
def processImageOps (b : ImgBytes) (id : Nat) : List FileOp :=
  match b with
  | .invalid => []
  | .valid _ _ => [FileOp.write (dataPath (imageFileName id))]

/-- The atomic-replace discipline the spec requires of `store`: the final
path is never the direct target of a write; new content only ever arrives
at the final path via a rename from some temporary path. -/
def storeUsesAtomicReplace : Prop :=
  ∀ (b : ImgBytes) (id : Nat),
    FileOp.write (dataPath (imageFileName id)) ∉ processImageOps b id

/-- Error taxonomy of the store operations (src/server.js: `Title is
required` → 400 ValidationError; `Item not found` → 404 NotFound; the
catch-all 500 of image processing → ImageProcessingError). -/
inductive StoreError
  | ValidationError
  | NotFound
  | ImageProcessingError
deriving Repr, DecidableEq

/-- The request-body fields of the POST and PUT handlers
(`{ title, url, price, note }` plus `req.body.image`). -/
structure Fields where
  title : Option String
  url : Option String
  price : Option String
  note : Option String
  image : Option String
deriving Repr, DecidableEq

/-- `POST /api/wishlist` (src/server.js lines 182-215) as a document
transformer. `now` is `Date.now()` (used as the new id), `dateStr` is
`new Date().toISOString()`, `file` is the multer upload if any.
The title check (line 185) precedes the read of the data file (line 191);
a throw from `processImage` (line 196) aborts before the push/write, so on
every error path the document is returned untouched. -/
def create (doc : List Item) (f : Fields) (file : Option ImgBytes)
    (now : Nat) (dateStr : String) : Except StoreError Item × List Item :=
  if jsFalsy f.title then
    (.error .ValidationError, doc)
  else
    match file with
    | some .invalid => (.error .ImageProcessingError, doc)
    | some (.valid _ _) =>
        let item : Item :=
          { id := now, title := f.title.getD "", url := f.url,
            price := f.price, note := f.note,
            image := some (imageRef now), dateAdded := dateStr,
            dateUpdated := none }
        (.ok item, doc ++ [item])
    | none =>
        let item : Item :=
          { id := now, title := f.title.getD "", url := f.url,
            price := f.price, note := f.note,
            image := if jsFalsy f.image then none else f.image,
            dateAdded := dateStr, dateUpdated := none }
        (.ok item, doc ++ [item])

/-- `GET /api/wishlist` (src/server.js lines 150-163): parses the persisted
document back; as JSON round-tripping is the identity on our item records,
listing returns the document. -/
def listItems (doc : List Item) : List Item := doc

/-- The record built by the PUT handler (src/server.js lines 234-249):
spread of the old item, then `title`, `url`, `price`, `note` from the body
(an absent body field overrides the old value with `undefined`, which the
stringify drops), `image` from `req.body.image || old.image` unless a file
was uploaded, and a fresh `dateUpdated`. -/
def updatedItem (old : Item) (f : Fields) (file : Option ImgBytes)
    (dateStr : String) : Item :=
  { old with
    title := f.title.getD ""
    url := f.url
    price := f.price
    note := f.note
    image := match file with
      | some (ImgBytes.valid _ _) => some (imageRef old.id)
      | _ => if jsFalsy f.image then old.image else f.image
    dateUpdated := some dateStr }

/-- `data.findIndex` + `data[itemIndex] = updatedItem` (src/server.js
lines 227, 251): replace the first item whose id matches, returning the
updated record and the new document, or `none` when no item matches. -/
def updateGo (doc : List Item) (id : Nat) (f : Fields)
    (file : Option ImgBytes) (dateStr : String) :
    Option (Item × List Item) :=
  match doc with
  | [] => none
  | a :: rest =>
      if a.id = id then
        some (updatedItem a f file dateStr, updatedItem a f file dateStr :: rest)
      else
        match updateGo rest id f file dateStr with
        | none => none
        | some (it, rest') => some (it, a :: rest')

/-- `PUT /api/wishlist/:id` (src/server.js lines 218-257) as a document
transformer. The title check (line 221) comes first, then the lookup
(lines 227-232), then `processImage` on an uploaded file (line 237), whose
throw is caught as a 500 before the document is rewritten. -/
def update (doc : List Item) (id : Nat) (f : Fields)
    (file : Option ImgBytes) (dateStr : String) :
    Except StoreError Item × List Item :=
  if jsFalsy f.title then
    (.error .ValidationError, doc)
  else
    match updateGo doc id f file dateStr with
    | none => (.error .NotFound, doc)
    | some (it, doc') =>
        if file = some ImgBytes.invalid then
          (.error .ImageProcessingError, doc)
        else
          (.ok it, doc')

/-- `DELETE /api/wishlist/:id` (src/server.js lines 260-274): keep every
item whose id differs from the requested one and report success
unconditionally. -/
def deleteItem (doc : List Item) (id : Nat) : Bool × List Item :=
  (true, doc.filter (fun item => item.id ≠ id))

/-- Server state seen by the image-upload route: the persisted item
document and the image files in the data directory (file name ↦ stored
pixel dimensions of the normalized jpeg). -/
structure ServerState where
  doc : List Item
  files : List (String × (ℤ × ℤ))
deriving Repr, DecidableEq

/-- Write (create or overwrite) one entry of the file map. -/
def fsSet (fs : List (String × (ℤ × ℤ))) (name : String) (dims : ℤ × ℤ) :
    List (String × (ℤ × ℤ)) :=
  (name, dims) :: fs.filter (fun p => p.1 ≠ name)

/-- Look a file up in the file map. -/
def fsGet (fs : List (String × (ℤ × ℤ))) (name : String) : Option (ℤ × ℤ) :=
  (fs.find? (fun p => p.1 = name)).map Prod.snd

/-- Result of the `POST /api/wishlist/image/:id` route. -/
inductive UploadResult
  | noFile
  | processed (imageUrl : String)
  | processError
deriving Repr, DecidableEq

/-- `processImage` (src/server.js lines 72-101) acting on the server state:
decode failure rejects with nothing written; a decodable image is resized
per `computeDims` and written at `<id>.jpeg`, returning the reference. -/
def processImageFS (st : ServerState) (b : ImgBytes) (id : Nat) :
    Except Unit (String × ServerState) :=
  match b with
  | .invalid => .error ()
  | .valid w h =>
      .ok (imageRef id,
        { st with
          files := fsSet st.files (imageFileName id)
                     (computeDims w h maxImageSize) })

/-- `POST /api/wishlist/image/:id` (src/server.js lines 166-179): reject
with 400 when no file came in; otherwise run `processImage` and answer with
the image URL, catching any processing error as a 500. The item document is
never read or consulted. -/
def uploadImage (st : ServerState) (file : Option ImgBytes) (id : Nat) :
    UploadResult × ServerState :=
  match file with
  | none => (.noFile, st)
  | some b =>
      match processImageFS st b id with
      | .error _ => (.processError, st)
      | .ok (url, st') => (.processed url, st')

/-- Outcome of the single `sharp(...).toFile(imagePath)` call
(src/server.js line 98): the promise either resolves or rejects (an
encoder or filesystem write failure outside the program's control). -/
inductive WriteOutcome
  | ok
  | fail
deriving Repr, DecidableEq

/-- The response of `POST /api/wishlist/image/:id` (src/server.js
lines 166-179) with the outcome of the `toFile` write made explicit: any
rejection inside `processImage` — undecodable bytes at `metadata()` or a
failed write at `toFile()` — is caught by the one catch block
(lines 175-178) and answered as the single processing error. -/
def uploadImageResult (file : Option ImgBytes) (id : Nat)
    (wr : WriteOutcome) : UploadResult :=
  match file with
  | none => .noFile
  | some .invalid => .processError
  | some (.valid _ _) =>
      match wr with
      | .ok => .processed (imageRef id)
      | .fail => .processError

/-- Concrete request-body fields for evaluation: a valid title, all other
fields absent. -/
def giftFields : Fields :=
  { title := some "gift", url := none, price := none, note := none,
    image := none }

/-- Concrete request-body fields for evaluation: empty title. -/
def emptyTitleFields : Fields :=
  { title := some "", url := none, price := none, note := none,
    image := none }

/-- A concrete item with id 1 for evaluation. -/
def itemA : Item :=
  { id := 1, title := "bike", url := none, price := some "100",
    note := none, image := none, dateAdded := "2025-01-01", dateUpdated := none }

/-- A concrete item with id 2 for evaluation. -/
def itemB : Item :=
  { id := 2, title := "book", url := some "http://x", price := none,
    note := some "n", image := some "/api/images/2.jpeg",
    dateAdded := "2025-01-02", dateUpdated := none }

/- ------------------------------------------------------------------ -/
/- Helper lemmas                                                       -/
/- ------------------------------------------------------------------ -/

/-- Deleting an id that no item carries keeps the document unchanged. -/
lemma filter_ne_eq_self (doc : List Item) (id : Nat)
    (habs : ∀ x ∈ doc, x.id ≠ id) :
    doc.filter (fun item => item.id ≠ id) = doc :=
  List.filter_eq_self.mpr (fun a ha => by simpa using habs a ha)

/-- Under distinct ids, deleting a present id drops exactly one element. -/
lemma filter_ne_length (doc : List Item) (id : Nat)
    (hnd : (doc.map Item.id).Nodup) (hmem : ∃ x ∈ doc, x.id = id) :
    (doc.filter (fun item => item.id ≠ id)).length + 1 = doc.length := by
  induction doc with
  | nil => simp at hmem
  | cons a rest ih =>
      simp only [List.map_cons, List.nodup_cons] at hnd
      by_cases ha : a.id = id
      · have habs : ∀ x ∈ rest, x.id ≠ id := by
          intro x hx hxid
          exact hnd.1 (List.mem_map.mpr ⟨x, hx, by rw [hxid]; exact ha.symm⟩)
        rw [List.filter_cons_of_neg (by simpa using ha)]
        rw [filter_ne_eq_self rest id habs]
        simp
      · rw [List.filter_cons_of_pos (by simpa using ha)]
        have hmem' : ∃ x ∈ rest, x.id = id := by
          obtain ⟨x, hx, hxid⟩ := hmem
          rcases hx with _ | hx
          · exact absurd hxid ha
          · exact ⟨x, by assumption, hxid⟩
        simp only [List.length_cons]
        rw [← ih hnd.2 hmem']

/-- Appending a fresh, strictly larger id keeps the id list duplicate-free. -/
lemma nodup_append_fresh {l : List Nat} {n : Nat} (hnd : l.Nodup)
    (h : ∀ x ∈ l, x < n) : (l ++ [n]).Nodup := by
  have hn : (n :: l).Nodup :=
    List.nodup_cons.mpr ⟨fun hmem => absurd (h n hmem) (lt_irrefl n), hnd⟩
  exact ((List.perm_append_singleton n l).nodup_iff).mpr hn

/-- Writing one file leaves every other file of the store unchanged. -/
lemma fsGet_fsSet_ne (fs : List (String × (ℤ × ℤ))) (fname name : String)
    (dims : ℤ × ℤ) (h : name ≠ fname) :
    fsGet (fsSet fs fname dims) name = fsGet fs name := by
  have hne : ¬ (fname = name) := fun he => h he.symm
  unfold fsGet fsSet
  rw [List.find?_cons_of_neg _ (by simpa using hne)]
  congr 1
  induction fs with
  | nil => rfl
  | cons a rest ih =>
      by_cases ha : a.1 = fname
      · have han : ¬ (a.1 = name) := by rw [ha]; exact hne
        rw [List.filter_cons_of_neg (by simpa using ha),
            List.find?_cons_of_neg _ (by simpa using han)]
        exact ih
      · rw [List.filter_cons_of_pos (by simpa using ha)]
        by_cases hn : a.1 = name
        · rw [List.find?_cons_of_pos _ (by simpa using hn),
              List.find?_cons_of_pos _ (by simpa using hn)]
        · rw [List.find?_cons_of_neg _ (by simpa using hn),
              List.find?_cons_of_neg _ (by simpa using hn)]
          exact ih

/- ------------------------------------------------------------------ -/
/- C1: id uniqueness across creates                                    -/
/- ------------------------------------------------------------------ -/

/-- C1 (counterexample): two creates that observe the same `Date.now()`
value (5) produce two items with the same id, so after the second create
the ids in the persisted collection are not pairwise distinct. -/
theorem create_same_timestamp_duplicate_id :
    ¬ ((List.map Item.id
        (create (create [] giftFields none 5 "t1").2 giftFields none 5 "t2").2).Nodup) := by
  decide

/-- C1 (amended): provided each create's `Date.now()` timestamp is strictly
greater than every id already in the collection (the clock strictly
advanced since every earlier create), the ids in the collection stay
pairwise distinct after any create. -/
theorem create_fresh_timestamp_unique_ids (doc : List Item) (f : Fields)
    (file : Option ImgBytes) (now : Nat) (dateStr : String)
    (hnd : (doc.map Item.id).Nodup)
    (hlt : ∀ x ∈ doc, x.id < now) :
    ((create doc f file now dateStr).2.map Item.id).Nodup := by
  have hfresh : ∀ m ∈ doc.map Item.id, m < now := by
    intro m hm
    obtain ⟨x, hx, hxm⟩ := List.mem_map.mp hm
    exact hxm ▸ hlt x hx
  unfold create
  by_cases ht : jsFalsy f.title
  · simpa [ht] using hnd
  · match file with
    | some .invalid => simpa [ht] using hnd
    | some (.valid w h) =>
        simpa [ht, List.map_append] using nodup_append_fresh hnd hfresh
    | none =>
        simpa [ht, List.map_append] using nodup_append_fresh hnd hfresh

/-- C1 (witness for the amended theorem): creating with timestamp 9 over a
collection holding the single id 1 yields pairwise-distinct ids. -/
theorem create_fresh_timestamp_unique_ids_witness :
    ((create [itemA] giftFields none 9 "t").2.map Item.id).Nodup :=
  create_fresh_timestamp_unique_ids [itemA] giftFields none 9 "t"
    (by decide) (by decide)

/- ------------------------------------------------------------------ -/
/- C3: empty-title create fails without touching the document          -/
/- ------------------------------------------------------------------ -/

/-- C3: when the title is absent or empty, create fails with
`ValidationError` and the persisted document is unchanged (the title check
precedes the read of the data file, so no read-modify-write occurs). -/
theorem create_empty_title_rejected (doc : List Item) (f : Fields)
    (file : Option ImgBytes) (now : Nat) (dateStr : String)
    (h : jsFalsy f.title = true) :
    (create doc f file now dateStr).1 = .error .ValidationError ∧
    (create doc f file now dateStr).2 = doc := by
  simp [create, h]

/-- C3 (witness): creating with an empty title over the empty collection
fails with `ValidationError` and leaves the collection empty. -/
theorem create_empty_title_rejected_witness :
    (create [] emptyTitleFields none 5 "t").1 = .error .ValidationError ∧
    (create [] emptyTitleFields none 5 "t").2 = [] :=
  create_empty_title_rejected [] emptyTitleFields none 5 "t" (by decide)

/- ------------------------------------------------------------------ -/
/- C5: failure semantics and write atomicity of the image pipeline     -/
/- ------------------------------------------------------------------ -/

/-- C5 (counterexample): `processImage` does not use write-then-rename or
an equivalent atomic replace: storing the decodable image of dimensions
10×10 under id 7 performs a direct write at the final path
`data/7.jpeg`. -/
theorem store_not_atomic_replace : ¬ storeUsesAtomicReplace := by
  intro hA
  exact hA (ImgBytes.valid 10 10) 7 (by decide)

/-- The oracle-enriched response agrees with the upload route model when
the write resolves. -/
lemma uploadImageResult_ok_agrees (st : ServerState) (file : Option ImgBytes)
    (id : Nat) :
    uploadImageResult file id .ok = (uploadImage st file id).1 := by
  match file with
  | none => rfl
  | some .invalid => rfl
  | some (.valid w h) => rfl

/-- C5 (amended): decode failures, unsupported inputs and write failures
during store are all reported to the caller as the single processing error
of the one catch block; on a decode failure no file is created or modified;
but a decodable image is written by a single direct write at the final path
`data/<id>.jpeg` — no temporary file and no rename — so the write is not an
atomic replace and a failed write is not prevented from leaving a partial
file visible there. -/
theorem store_failure_semantics (st : ServerState) (id : Nat) :
    (∀ wr, uploadImageResult (some ImgBytes.invalid) id wr = .processError) ∧
    (∀ w h, uploadImageResult (some (ImgBytes.valid w h)) id .fail
      = .processError) ∧
    uploadImage st (some ImgBytes.invalid) id = (.processError, st) ∧
    processImageOps ImgBytes.invalid id = [] ∧
    ∀ w h, processImageOps (ImgBytes.valid w h) id
      = [FileOp.write (dataPath (imageFileName id))] :=
  ⟨fun _ => rfl, fun _ _ => rfl, rfl, rfl, fun _ _ => rfl⟩

/- ------------------------------------------------------------------ -/
/- C7: delete is idempotent and tolerates absence                      -/
/- ------------------------------------------------------------------ -/

/-- C7: delete reports success unconditionally; a second delete of the same
id also succeeds and leaves the document exactly as the first left it; and
deleting an id no item carries is a successful no-op. -/
theorem delete_idempotent (doc : List Item) (id : Nat) :
    (deleteItem doc id).1 = true ∧
    (deleteItem (deleteItem doc id).2 id).1 = true ∧
    (deleteItem (deleteItem doc id).2 id).2 = (deleteItem doc id).2 ∧
    ((∀ x ∈ doc, x.id ≠ id) → (deleteItem doc id).2 = doc) := by
  refine ⟨rfl, rfl, ?_, ?_⟩
  · show (List.filter _ (List.filter _ doc)) = _
    exact filter_ne_eq_self _ id (fun a ha => by
      simpa using List.of_mem_filter ha)
  · intro habs
    exact filter_ne_eq_self doc id habs

/-- C7 (witness): deleting the absent id 99 from a two-item collection
succeeds twice and leaves the collection unchanged. -/
theorem delete_idempotent_witness :
    (deleteItem [itemA, itemB] 99).2 = [itemA, itemB] :=
  (delete_idempotent [itemA, itemB] 99).2.2.2 (by decide)

/- ------------------------------------------------------------------ -/
/- C10: the image-upload route never touches the item document         -/
/- ------------------------------------------------------------------ -/

/-- C10: for every server state and every id — including ids for which no
item exists, since no existence check is performed — uploading a decodable
image succeeds with the reference URL, leaves the item document unchanged,
and modifies no file other than `<id>.jpeg`. -/
theorem upload_image_frame (st : ServerState) (w h id : Nat) :
    (uploadImage st (some (ImgBytes.valid w h)) id).1
      = .processed (imageRef id) ∧
    (uploadImage st (some (ImgBytes.valid w h)) id).2.doc = st.doc ∧
    ∀ name, name ≠ imageFileName id →
      fsGet (uploadImage st (some (ImgBytes.valid w h)) id).2.files name
        = fsGet st.files name := by
  refine ⟨rfl, rfl, fun name hname => ?_⟩
  exact fsGet_fsSet_ne st.files (imageFileName id) name _ hname

/-- C10 (witness): uploading a 10×10 image under the absent id 99 over a
state holding only item id 1 leaves the document unchanged and the file
`1.jpeg` untouched. -/
theorem upload_image_frame_witness :
    (uploadImage ⟨[itemA], [("1.jpeg", (4, 4))]⟩
        (some (ImgBytes.valid 10 10)) 99).2.doc = [itemA] ∧
    fsGet (uploadImage ⟨[itemA], [("1.jpeg", (4, 4))]⟩
        (some (ImgBytes.valid 10 10)) 99).2.files "1.jpeg"
      = fsGet [("1.jpeg", (4, 4))] "1.jpeg" :=
  ⟨(upload_image_frame ⟨[itemA], [("1.jpeg", (4, 4))]⟩ 10 10 99).2.1,
   (upload_image_frame ⟨[itemA], [("1.jpeg", (4, 4))]⟩ 10 10 99).2.2
     "1.jpeg" (by decide)⟩

/- ------------------------------------------------------------------ -/
/- C2: delete removes exactly one element, preserving order            -/
/- ------------------------------------------------------------------ -/

/-- C2: under the collection invariant that ids are pairwise distinct, the
document after a delete is a sublist of the document before (the remaining
elements keep their relative order), the size decreases by at most one, and
when an item with the requested id is present exactly one element is
removed. -/
theorem delete_removes_exactly_one (doc : List Item) (id : Nat)
    (hnd : (doc.map Item.id).Nodup) :
    (deleteItem doc id).2.Sublist doc ∧
    doc.length - 1 ≤ (deleteItem doc id).2.length ∧
    ((∃ x ∈ doc, x.id = id) →
      (deleteItem doc id).2.length + 1 = doc.length) := by
  refine ⟨List.filter_sublist doc, ?_, fun hmem => filter_ne_length doc id hnd hmem⟩
  by_cases hmem : ∃ x ∈ doc, x.id = id
  · have := filter_ne_length doc id hnd hmem
    show doc.length - 1 ≤ (List.filter _ doc).length
    omega
  · push_neg at hmem
    have : (deleteItem doc id).2 = doc :=
      filter_ne_eq_self doc id (fun x hx => by
        intro hxe; exact absurd hxe (hmem x hx))
    rw [this]
    omega

/-- C2 (witness): deleting id 1 from the two-item collection removes
exactly one element and the remaining list is a sublist of the original. -/
theorem delete_removes_exactly_one_witness :
    (deleteItem [itemA, itemB] 1).2.Sublist [itemA, itemB] ∧
    ([itemA, itemB] : List Item).length - 1
      ≤ (deleteItem [itemA, itemB] 1).2.length ∧
    ((∃ x ∈ [itemA, itemB], x.id = 1) →
      (deleteItem [itemA, itemB] 1).2.length + 1
        = ([itemA, itemB] : List Item).length) :=
  delete_removes_exactly_one [itemA, itemB] 1 (by decide)

/- ------------------------------------------------------------------ -/
/- Update characterization (shared by C6 and C8)                       -/
/- ------------------------------------------------------------------ -/

/-- When `findIndex` locates a first matching item `old`, the PUT handler's
replacement step returns `updatedItem old` together with some rewritten
document. -/
lemma updateGo_eq_of_find (doc : List Item) (id : Nat) (f : Fields)
    (file : Option ImgBytes) (dateStr : String) (old : Item)
    (hfind : doc.find? (fun x => x.id = id) = some old) :
    ∃ doc', updateGo doc id f file dateStr
      = some (updatedItem old f file dateStr, doc') := by
  induction doc with
  | nil => simp at hfind
  | cons a rest ih =>
      by_cases ha : a.id = id
      · rw [List.find?_cons_of_pos _ (by simpa using ha)] at hfind
        obtain rfl : a = old := Option.some.inj hfind
        exact ⟨updatedItem a f file dateStr :: rest, by simp [updateGo, ha]⟩
      · rw [List.find?_cons_of_neg _ (by simpa using ha)] at hfind
        obtain ⟨rest', hrest⟩ := ih hfind
        exact ⟨a :: rest', by simp [updateGo, ha, hrest]⟩

/-- The successful result of the PUT handler is exactly `updatedItem old`
for the first item `old` whose id matches. -/
lemma update_ok_eq (doc : List Item) (id : Nat) (f : Fields)
    (file : Option ImgBytes) (dateStr : String) (old : Item)
    (ht : jsFalsy f.title = false) (hfile : file ≠ some ImgBytes.invalid)
    (hfind : doc.find? (fun x => x.id = id) = some old) :
    (update doc id f file dateStr).1 = .ok (updatedItem old f file dateStr) := by
  obtain ⟨doc', hgo⟩ := updateGo_eq_of_find doc id f file dateStr old hfind
  simp [update, ht, hgo, hfile]

/- ------------------------------------------------------------------ -/
/- C6: update keeps dateAdded and stamps dateUpdated                   -/
/- ------------------------------------------------------------------ -/

/-- C6: an update of an existing item with a non-empty title returns an
item whose `dateAdded` equals the stored item's `dateAdded` and whose
`dateUpdated` is set to the update's timestamp. -/
theorem update_preserves_dateAdded (doc : List Item) (id : Nat) (f : Fields)
    (file : Option ImgBytes) (dateStr : String) (old : Item)
    (ht : jsFalsy f.title = false) (hfile : file ≠ some ImgBytes.invalid)
    (hfind : doc.find? (fun x => x.id = id) = some old) :
    ∃ it, (update doc id f file dateStr).1 = .ok it ∧
      it.dateAdded = old.dateAdded ∧ it.dateUpdated = some dateStr :=
  ⟨updatedItem old f file dateStr,
   update_ok_eq doc id f file dateStr old ht hfile hfind, rfl, rfl⟩

/-- C6 (witness): updating item 1 of the two-item collection keeps its
`dateAdded` of "2025-01-01" and stamps `dateUpdated`. -/
theorem update_preserves_dateAdded_witness :
    ∃ it, (update [itemA, itemB] 1 giftFields none "2025-02-02").1 = .ok it ∧
      it.dateAdded = itemA.dateAdded ∧ it.dateUpdated = some "2025-02-02" :=
  update_preserves_dateAdded [itemA, itemB] 1 giftFields none "2025-02-02"
    itemA (by decide) (by decide) (by decide)

/- ------------------------------------------------------------------ -/
/- C8: update replaces the image only when a new one is supplied        -/
/- ------------------------------------------------------------------ -/

/-- C8: on a successful update of an existing item, when no file was
uploaded and the body carries no truthy image reference the stored image
reference is retained unchanged; contrapositively the image field changes
only when a new reference or an uploaded file was supplied. -/
theorem update_image_only_when_supplied (doc : List Item) (id : Nat)
    (f : Fields) (file : Option ImgBytes) (dateStr : String) (old : Item)
    (ht : jsFalsy f.title = false) (hfile : file ≠ some ImgBytes.invalid)
    (hfind : doc.find? (fun x => x.id = id) = some old) :
    ∃ it, (update doc id f file dateStr).1 = .ok it ∧
      (file = none → jsFalsy f.image = true → it.image = old.image) ∧
      (it.image ≠ old.image → file ≠ none ∨ jsFalsy f.image = false) := by
  refine ⟨updatedItem old f file dateStr,
    update_ok_eq doc id f file dateStr old ht hfile hfind, ?_, ?_⟩
  · rintro rfl himg
    simp [updatedItem, himg]
  · intro hchange
    by_contra hcon
    push_neg at hcon
    obtain ⟨hnone, himg⟩ := hcon
    subst hnone
    have himg' : jsFalsy f.image = true := by simpa using himg
    exact hchange (by simp [updatedItem, himg'])

/-- C8 (witness): updating item 2 with no uploaded file and no body image
reference keeps its stored image reference. -/
theorem update_image_only_when_supplied_witness :
    ∃ it, (update [itemA, itemB] 2 giftFields none "2025-02-02").1 = .ok it ∧
      (none = (none : Option ImgBytes) → jsFalsy giftFields.image = true →
        it.image = itemB.image) ∧
      (it.image ≠ itemB.image →
        (none : Option ImgBytes) ≠ none ∨ jsFalsy giftFields.image = false) :=
  update_image_only_when_supplied [itemA, itemB] 2 giftFields none
    "2025-02-02" itemB (by decide) (by decide) (by decide)

/- ------------------------------------------------------------------ -/
/- C9: create followed by list round-trips the submitted fields         -/
/- ------------------------------------------------------------------ -/

/-- C9: a valid create with no uploaded file appends the new item at the
end of the listed collection, with the submitted title, url, price and note
stored intact and with a null image when none was supplied. -/
theorem create_list_roundtrip (doc : List Item) (f : Fields) (now : Nat)
    (dateStr : String) (ht : jsFalsy f.title = false) :
    ∃ it, (create doc f none now dateStr).1 = .ok it ∧
      listItems (create doc f none now dateStr).2 = listItems doc ++ [it] ∧
      some it.title = f.title ∧ it.url = f.url ∧ it.price = f.price ∧
      it.note = f.note ∧ (f.image = none → it.image = none) := by
  match hft : f.title with
  | none => rw [hft] at ht; simp [jsFalsy] at ht
  | some s =>
      refine ⟨{ id := now, title := f.title.getD "", url := f.url,
                price := f.price, note := f.note,
                image := if jsFalsy f.image then none else f.image,
                dateAdded := dateStr, dateUpdated := none },
              ?_, ?_, ?_, rfl, rfl, rfl, ?_⟩
      · simp [create, ht]
      · simp [create, ht, listItems]
      · simp [hft]
      · intro hnone
        simp [hnone, jsFalsy]

/-- C9 (witness): creating from the submitted fields over a one-item
collection appends the new item with its fields intact and a null image. -/
theorem create_list_roundtrip_witness :
    ∃ it, (create [itemA] giftFields none 9 "t").1 = .ok it ∧
      listItems (create [itemA] giftFields none 9 "t").2
        = listItems [itemA] ++ [it] ∧
      some it.title = giftFields.title ∧ it.url = giftFields.url ∧
      it.price = giftFields.price ∧ it.note = giftFields.note ∧
      (giftFields.image = none → it.image = none) :=
  create_list_roundtrip [itemA] giftFields 9 "t" (by decide)

/- ------------------------------------------------------------------ -/
/- C4: image dimension normalization                                   -/
/- ------------------------------------------------------------------ -/

/-- `Math.round` of an integral value is that value. -/
lemma jsRound_natCast (n : Nat) : jsRound ((n : ℚ)) = (n : ℤ) := by
  unfold jsRound
  rw [show ((n : ℚ) + 1/2) = (1/2 : ℚ) + ((n : ℤ) : ℚ) by push_cast; ring,
      Int.floor_add_int]
  norm_num

/-- `Math.round` is monotone. -/
lemma jsRound_mono {q r : ℚ} (h : q ≤ r) : jsRound q ≤ jsRound r :=
  Int.floor_le_floor (by linarith)

/-- Scaling a positive dimension by `maxD / itself` lands exactly on
`maxD`. -/
lemma scale_self_eq (a maxD : Nat) (ha : 0 < a) :
    (a : ℚ) * ((maxD : ℚ) / (a : ℚ)) = (maxD : ℚ) := by
  have h0 : (a : ℚ) ≠ 0 := Nat.cast_ne_zero.mpr ha.ne'
  rw [mul_comm, div_mul_cancel₀ _ h0]

/-- Scaling the smaller dimension by `maxD / larger` stays below `maxD`. -/
lemma scale_other_le (small big maxD : Nat) (hbig : 0 < big)
    (hle : small ≤ big) :
    (small : ℚ) * ((maxD : ℚ) / (big : ℚ)) ≤ (maxD : ℚ) := by
  have h0 : (0 : ℚ) ≤ (maxD : ℚ) / (big : ℚ) := by positivity
  calc (small : ℚ) * ((maxD : ℚ) / (big : ℚ))
      ≤ (big : ℚ) * ((maxD : ℚ) / (big : ℚ)) := by
        exact mul_le_mul_of_nonneg_right (by exact_mod_cast hle) h0
    _ = (maxD : ℚ) := scale_self_eq big maxD hbig

/-- C4: with positive native dimensions, `processImage` keeps the
dimensions unchanged when both already fit within `maxD` (never upscales),
and otherwise scales both by the common ratio
`min (maxD/width) (maxD/height)` with `Math.round`, making the larger
output dimension exactly `maxD`. -/
theorem computeDims_spec (w h maxD : Nat) (hw : 0 < w) (hh : 0 < h) :
    (w ≤ maxD ∧ h ≤ maxD → computeDims w h maxD = ((w : ℤ), (h : ℤ))) ∧
    (maxD < w ∨ maxD < h →
      computeDims w h maxD =
        (jsRound ((w : ℚ) * min ((maxD : ℚ) / (w : ℚ)) ((maxD : ℚ) / (h : ℚ))),
         jsRound ((h : ℚ) * min ((maxD : ℚ) / (w : ℚ)) ((maxD : ℚ) / (h : ℚ)))) ∧
      max (computeDims w h maxD).1 (computeDims w h maxD).2 = (maxD : ℤ)) := by
  constructor
  · rintro ⟨h1, h2⟩
    unfold computeDims
    rw [if_neg (by omega)]
  · intro hcond
    have hdef : computeDims w h maxD =
        (jsRound ((w : ℚ) * min ((maxD : ℚ) / (w : ℚ)) ((maxD : ℚ) / (h : ℚ))),
         jsRound ((h : ℚ) * min ((maxD : ℚ) / (w : ℚ)) ((maxD : ℚ) / (h : ℚ)))) := by
      unfold computeDims
      rw [if_pos hcond]
    refine ⟨hdef, ?_⟩
    rw [hdef]
    rcases le_total h w with hle | hle
    · have hmw : maxD < w := by omega
      have hmin : min ((maxD : ℚ) / (w : ℚ)) ((maxD : ℚ) / (h : ℚ))
          = (maxD : ℚ) / (w : ℚ) :=
        min_eq_left (div_le_div_of_nonneg_left (by positivity)
          (by exact_mod_cast hh) (by exact_mod_cast hle))
      rw [hmin]
      have hbig : jsRound ((w : ℚ) * ((maxD : ℚ) / (w : ℚ))) = (maxD : ℤ) := by
        rw [scale_self_eq w maxD hw, jsRound_natCast]
      have hsmall : jsRound ((h : ℚ) * ((maxD : ℚ) / (w : ℚ))) ≤ (maxD : ℤ) := by
        have := jsRound_mono (scale_other_le h w maxD hw hle)
        rwa [jsRound_natCast] at this
      simp only [hbig]
      exact max_eq_left (by omega)
    · have hmh : maxD < h := by omega
      have hmin : min ((maxD : ℚ) / (w : ℚ)) ((maxD : ℚ) / (h : ℚ))
          = (maxD : ℚ) / (h : ℚ) :=
        min_eq_right (div_le_div_of_nonneg_left (by positivity)
          (by exact_mod_cast hw) (by exact_mod_cast hle))
      rw [hmin]
      have hbig : jsRound ((h : ℚ) * ((maxD : ℚ) / (h : ℚ))) = (maxD : ℤ) := by
        rw [scale_self_eq h maxD hh, jsRound_natCast]
      have hsmall : jsRound ((w : ℚ) * ((maxD : ℚ) / (h : ℚ))) ≤ (maxD : ℤ) := by
        have := jsRound_mono (scale_other_le w h maxD hh hle)
        rwa [jsRound_natCast] at this
      simp only [hbig]
      exact max_eq_right (by omega)

/-- The worked example of the spec: a 3000×1500 input bounded by 1024 is
resized to exactly 1024×512. -/
lemma computeDims_example :
    computeDims 3000 1500 1024 = ((1024 : ℤ), (512 : ℤ)) := by
  norm_num [computeDims, jsRound]

/-- C4 (witness): a 3000×1500 image with `maxDimension = 1024` is stored at
exactly 1024 on its larger side, and a 400×300 image is kept at 400×300
unchanged. -/
theorem computeDims_spec_witness :
    max (computeDims 3000 1500 1024).1 (computeDims 3000 1500 1024).2
      = (1024 : ℤ) ∧
    computeDims 400 300 1024 = ((400 : ℤ), (300 : ℤ)) :=
  ⟨((computeDims_spec 3000 1500 1024 (by decide) (by decide)).2
      (by decide)).2,
   (computeDims_spec 400 300 1024 (by decide) (by decide)).1 (by decide)⟩

end DumbWish
